import Mathlib

/-!
Verification development for the code-emission core of an API-client
generator (`src/v2/codegen/object.rs`): the object/builder data model,
the field/parameter unifier, the typestate generic synthesizer, the
container planner and the text renderers, together with theorems about
the claims C1 - C10.

Strings are modelled as Lean `String` / `List Char`; the source operates
on ASCII byte strings, so character indexing coincides with byte
indexing on every input considered here.
-/

set_option maxRecDepth 4096

/-! ## Constants and helpers modelled from outside `src/` -/

/-- Modelled from the spec: the reserved marker string that denotes the
dynamic-type placeholder's generic slot name (`ANY_GENERIC_PARAMETER`,
defined in the emitter module, which is not under `src/`). -/
def ANY_GENERIC_PARAMETER : String := "Any"

/-- Modelled from the spec: the reserved marker string that denotes a file
upload/response in place of a concrete type path (`FILE_MARKER`, defined in
the emitter module, which is not under `src/`). -/
def FILE_MARKER : String := "std::fs::File"

/-- Modelled from the spec: the reserved-word list used for identifier
collision suffixing (`RUST_KEYWORDS`, defined in a sibling module that is
not under `src/`). -/
def RUST_KEYWORDS : List String :=
  ["abstract", "as", "async", "await", "become", "box", "break", "const",
   "continue", "crate", "do", "dyn", "else", "enum", "extern", "false",
   "final", "fn", "for", "if", "impl", "in", "let", "loop", "macro",
   "match", "mod", "move", "mut", "override", "priv", "pub", "ref",
   "return", "self", "Self", "static", "struct", "super", "trait", "true",
   "try", "type", "typeof", "unsafe", "unsized", "use", "virtual", "where",
   "while", "yield"]

/-- Modelled from the spec: HTTP methods (defined in the models module,
which is not under `src/`). -/
inductive HttpMethod where
  | Get | Put | Post | Delete | Options | Head | Patch
deriving DecidableEq

/-- Modelled from the spec: the `Display` rendering of an HTTP method used
when building type names such as `PetGetBuilder`. -/
def methodToString : HttpMethod → String
  | .Get => "Get"
  | .Put => "Put"
  | .Post => "Post"
  | .Delete => "Delete"
  | .Options => "Options"
  | .Head => "Head"
  | .Patch => "Patch"

/-- Modelled from the spec: where a parameter lives (header/path/query/...,
defined in the models module, which is not under `src/`). -/
inductive ParameterIn where
  | Query | Header | Path | FormData | Body
deriving DecidableEq

/-- Modelled from the spec: the delimiting strategy for serializing repeated
values into one value (defined in the models module, which is not under
`src/`). -/
inductive CollectionFormat where
  | Csv | Ssv | Tsv | Pipes | Multi
deriving DecidableEq

/-- Modelled from the spec: the derived `Debug` rendering of a delimiting
strategy, used by `write_wrapped_ty` via `write!("{:?}", ..)`. -/
def collectionFormatDebug : CollectionFormat → String
  | .Csv => "Csv"
  | .Ssv => "Ssv"
  | .Tsv => "Tsv"
  | .Pipes => "Pipes"
  | .Multi => "Multi"

/-- Modelled from the spec: the opaque wire-format coder handle (carried,
never interpreted, by this core). -/
structure Coder where
  coderPath : String
deriving DecidableEq

/-- Modelled from the spec: identifier case conversion to CamelCase (the
source uses an external case-conversion crate that is not part of this
repository). Any deterministic conversion function is adequate for the
claims below. -/
def toCamelCase (s : String) : String :=
  (s.toList.foldl
    (fun acc c =>
      if c = '_' ∨ c = '-' then (acc.1, true)
      else if acc.2 then (acc.1.push c.toUpper, false)
      else (acc.1.push c.toLower, false))
    ("", true)).1

/-- Modelled from the spec: identifier case conversion to snake_case (the
source uses an external case-conversion crate that is not part of this
repository). -/
def toSnekCase (s : String) : String :=
  s.toList.foldl
    (fun acc c =>
      if c.isUpper then (if acc.isEmpty then acc else acc.push '_').push c.toLower
      else if c = '-' then acc.push '_'
      else acc.push c)
    ""

/-! ## Character-list utilities mirroring the string operations used by
the source (`str::contains`, `str::replace`, `str::find`). -/

/-- Tests whether a character list begins with the three characters
`V`, `e`, `c`; helper for `contains("Vec")` / `replace("Vec", ..)`. -/
def vec3 : List Char → Option (List Char)
  | a :: b :: c :: rest => if a = 'V' ∧ b = 'e' ∧ c = 'c' then some rest else none
  | _ => none

/-- Whether the list starts with the substring `Vec`. -/
def startsVec (l : List Char) : Bool := (vec3 l).isSome

/-- Mirrors `str::contains("Vec")`. -/
def containsVec : List Char → Bool
  | [] => false
  | c :: rest => startsVec (c :: rest) || containsVec rest

/-- Fuelled worker for `str::replace("Vec", repl)`: leftmost,
non-overlapping replacement.  The fuel is at least the list length at
every call site, which makes the exhaustion arm unreachable. -/
def replaceVecAux (repl : List Char) : Nat → List Char → List Char
  | 0, l => l
  | _ + 1, [] => []
  | fuel + 1, c :: rest =>
    match vec3 (c :: rest) with
    | some rest2 => repl ++ replaceVecAux repl fuel rest2
    | none => c :: replaceVecAux repl fuel rest

/-- Mirrors `str::replace("Vec", repl)` on character lists. -/
def replaceVec (repl l : List Char) : List Char := replaceVecAux repl l.length l

/-- Mirrors `str::find('>')`: index of the first `>` character. -/
def findGt : List Char → Option Nat
  | [] => none
  | c :: rest => if c = '>' then some 0 else (findGt rest).map (· + 1)

/-- Mirrors `str::find('<')`: index of the first `<` character. -/
def findLt : List Char → Option Nat
  | [] => none
  | c :: rest => if c = '<' then some 0 else (findLt rest).map (· + 1)

/-- Tests whether a character list begins with `::`; helper for
`contains("::")`. -/
def startsColons : List Char → Bool
  | a :: b :: _ => a = ':' && b = ':'
  | _ => false

/-- Mirrors `str::contains("::")`. -/
def containsColons : List Char → Bool
  | [] => false
  | c :: rest => startsColons (c :: rest) || containsColons rest

/-! ## The data model (`object.rs`) -/

/-- Response information for an operation (`Response<S>` with `S = String`). -/
structure Response where
  ty_path : Option String
  contains_any : Bool
deriving DecidableEq

/-- Returns whether this response is a file (`Response::is_file`). -/
def Response.is_file (r : Response) : Bool :=
  (r.ty_path.map (fun s => s == FILE_MARKER)).getD false

/-- Represents some parameter somewhere (header, path, query, etc.). -/
structure Parameter where
  name : String
  description : Option String
  ty_path : String
  required : Bool
  presence : ParameterIn
  delimiting : List CollectionFormat
deriving DecidableEq

/-- Represents a struct field of an API object. -/
structure ObjectField where
  name : String
  ty_path : String
  description : Option String
  is_required : Bool
  needs_any : Bool
  boxed : Bool
  child_req_fields : List String
deriving DecidableEq

/-- Requirement for an object corresponding to some operation
(`OpRequirement`). -/
structure OpRequirement where
  id : Option String
  description : Option String
  deprecated : Bool
  params : List Parameter
  body_required : Bool
  listable : Bool
  response : Response
  encoding : Option (String × Coder)
  decoding : Option (String × Coder)
deriving DecidableEq

/-- Operations in a path (`PathOps`).  The source stores `req` in a
`BTreeMap<HttpMethod, OpRequirement>`; it is modelled as an association
list ordered by key.  Neither map is iterated by the rendering code under
verification. -/
structure PathOps where
  req : List (HttpMethod × OpRequirement)
  params : List Parameter
deriving DecidableEq

/-- Represents a (simplified) Rust struct or enum (`ApiObject`).  The
source stores `paths` in a `BTreeMap<String, PathOps>`, modelled as an
association list ordered by key. -/
structure ApiObject where
  name : String
  description : Option String
  path : String
  fields : List ObjectField
  paths : List (String × PathOps)
deriving DecidableEq

/-- The property a unified struct field represents (`Property`). -/
inductive Property where
  | RequiredField
  | OptionalField
  | RequiredParam
  | OptionalParam
deriving DecidableEq

/-- Whether this property is required (`Property::is_required`). -/
def Property.is_required : Property → Bool
  | .RequiredField => true
  | .RequiredParam => true
  | _ => false

/-- Whether this property is a parameter (`Property::is_parameter`). -/
def Property.is_parameter : Property → Bool
  | .RequiredParam => true
  | .OptionalParam => true
  | _ => false

/-- Whether this property is a field (`Property::is_field`). -/
def Property.is_field : Property → Bool
  | .RequiredField => true
  | .OptionalField => true
  | _ => false

/-- Mode selector for `write_generics_if_necessary` (`TypeParameters`). -/
inductive TypeParameters where
  | Generic
  | ChangeOne (name : String)
  | ReplaceAll
  | ChangeAll

/-- Represents a Rust struct field of a builder: the unified view of one
object field or parameter (`StructField`). -/
structure StructField where
  name : String
  ty : String
  prop : Property
  desc : Option String
  overridden : Bool
  strict_child_fields : List String
  delimiting : List CollectionFormat
  param_loc : Option ParameterIn
  needs_any : Bool
  needs_file : Bool
deriving DecidableEq

/-- Represents a builder struct for some API object (`ApiObjectBuilder`).
The borrowed slices of the source are modelled as owned lists.  The field
`helper_module_prefix` of the source is named `helperModulePfx` here. -/
structure ApiObjectBuilder where
  idx : Nat
  description : Option String
  body_required : Bool
  helperModulePfx : String
  op_id : Option String
  deprecated : Bool
  method : Option HttpMethod
  rel_path : Option String
  is_list_op : Bool
  response : Response
  object : String
  encoding : Option (String × Coder)
  decoding : Option (String × Coder)
  multiple_builders_exist : Bool
  fields : List ObjectField
  global_params : List Parameter
  local_params : List Parameter
  needs_any : Bool
deriving DecidableEq

/-! ## `ApiObject` helpers (`object.rs` lines 160-237) -/

/-- Writes `Any` as a generic parameter, including the angle brackets
(`ApiObject::write_any_generic`). -/
def ApiObject.write_any_generic : String :=
  "<" ++ ANY_GENERIC_PARAMETER ++ ">"

/-- Escapes `[` and `]` in one documentation line (the `DOC_REGEX`
replacement of `write_docs`). -/
def docEscape (line : String) : String :=
  String.join (line.toList.map (fun c =>
    if c = '[' then "\\["
    else if c = ']' then "\\]"
    else String.mk [c]))

/-- Writes the given string (if any) as Rust documentation
(`ApiObject::write_docs`): one `///` line per source line, empty lines
kept bare, bracket characters escaped and trailing whitespace stripped. -/
def ApiObject.write_docs (stuff : Option String) (levels : Nat) : String :=
  let indent := String.mk (List.replicate (levels * 4) ' ')
  match stuff with
  | none => ""
  | some desc =>
    String.join ((desc.splitOn "\n").map (fun line =>
      "\n" ++ indent ++ "///" ++
        (if line.isEmpty then "" else " " ++ (docEscape line).trimRight))) ++ "\n"

/-- Returns whether this type is simple, i.e. not an object defined by the
generator (`ApiObject::is_simple_type`), on character lists. -/
def is_simple_typeL (ty : List Char) : Bool :=
  !(containsColons ty) || ("Delimited".toList.isSuffixOf ty)

/-- Result of `ApiObject::write_field_with_any`: either the written text,
or the `unreachable!("no other generics expected.")` branch, or fuel
exhaustion (never reached from `write_field_with_any`). -/
inductive WfaResult where
  | ok (out : List Char)
  | invalidGeneric
  | fuelOut
deriving DecidableEq

/-- Fuelled worker for `ApiObject::write_field_with_any`: substitutes the
`Any` parameter recursively through `Vec<..>` and
`std::collections::BTreeMap<String, ..>` wrappers, appending `<Any>` at a
non-simple leaf; any other generic shape hits `unreachable!`. -/
def write_field_with_any_fuel : Nat → List Char → WfaResult
  | 0, _ => .fuelOut
  | fuel + 1, ty =>
    match findLt ty with
    | some i =>
      if "Vec".toList.isSuffixOf (ty.take i) then
        match write_field_with_any_fuel fuel ((ty.drop (i + 1)).dropLast) with
        | .ok rest => .ok (ty.take (i + 1) ++ rest ++ [ '>' ])
        | r => r
      else if "std::collections::BTreeMap".toList.isSuffixOf (ty.take i) then
        match write_field_with_any_fuel fuel ((ty.drop (i + 9)).dropLast) with
        | .ok rest => .ok (ty.take (i + 9) ++ rest ++ [ '>' ])
        | r => r
      else .invalidGeneric
    | none =>
      .ok (ty ++ (if is_simple_typeL ty then [] else ApiObject.write_any_generic.toList))

/-- Assuming that the given type "is" or "has" `Any`, adds the appropriate
generic parameter (`ApiObject::write_field_with_any`). -/
def ApiObject.write_field_with_any (ty : List Char) : WfaResult :=
  write_field_with_any_fuel (ty.length + 1) ty

/-! ## The field/parameter unifier (`ApiObjectBuilder::struct_fields_iter`) -/

/-- The `StructField` built from an object field by `struct_fields_iter`:
the field is "required" only if the object body itself is required. -/
def structFieldOfField (body_required : Bool) (field : ObjectField) : StructField :=
  { name := field.name
    ty := field.ty_path
    prop := if body_required && field.is_required then .RequiredField else .OptionalField
    desc := field.description
    overridden := false
    strict_child_fields := field.child_req_fields
    delimiting := []
    param_loc := none
    needs_any := field.needs_any
    needs_file := field.ty_path == FILE_MARKER }

/-- The `StructField` built from a parameter by `struct_fields_iter`. -/
def structFieldOfParam (param : Parameter) : StructField :=
  { name := param.name
    ty := param.ty_path
    prop := if param.required then .RequiredParam else .OptionalParam
    desc := param.description
    overridden := false
    strict_child_fields := []
    delimiting := param.delimiting
    param_loc := some param.presence
    needs_any := false
    needs_file := param.ty_path == FILE_MARKER }

/-- The `scan`-with-`HashSet` pass of `struct_fields_iter` over the chained
global and local parameters: a parameter whose name was already seen is
skipped (the set is used only for membership tests). -/
def paramScan : List Parameter → List String → List StructField
  | [], _ => []
  | p :: rest, seen =>
    if seen.contains p.name then paramScan rest seen
    else structFieldOfParam p :: paramScan rest (p.name :: seen)

/-- One step of the parameter-field collision loop of `struct_fields_iter`:
find the first accumulated entry with the same name; if one exists and the
types match, flag it `overridden` and drop the new entry; if one exists
with a different type, silently drop the new entry; otherwise push the new
entry at the end. -/
def addStructField : List StructField → StructField → List StructField
  | [], fld => [fld]
  | f :: rest, fld =>
    if f.name = fld.name then
      (if f.ty = fld.ty then { f with overridden := true } else f) :: rest
    else f :: addStructField rest fld

/-- Returns the unified sequence of fields and parameters for the builder
struct (`ApiObjectBuilder::struct_fields_iter`): global then local
parameters (first occurrence of a name wins in the scan), then object
fields, deduplicated by the collision loop. -/
def ApiObjectBuilder.struct_fields_iter (b : ApiObjectBuilder) : List StructField :=
  let field_iter := b.fields.map (structFieldOfField b.body_required)
  let param_iter := paramScan (b.global_params ++ b.local_params) []
  (param_iter ++ field_iter).foldl addStructField []

/-! ## Builder queries and writers -/

/-- Name of the constructor function which creates this builder
(`ApiObjectBuilder::constructor_fn_name`). -/
def ApiObjectBuilder.constructor_fn_name (b : ApiObjectBuilder) : Option String :=
  match b.op_id, b.method with
  | some id, _ => some (toSnekCase id)
  | none, some meth =>
    if !b.multiple_builders_exist then some (toSnekCase (methodToString meth))
    else
      some (let n := toSnekCase (methodToString meth)
            if b.idx > 0 then n ++ "_" ++ toString b.idx else n)
  | none, none => none

/-- Writes this builder's name (`ApiObjectBuilder::write_name`). -/
def ApiObjectBuilder.write_name (b : ApiObjectBuilder) : String :=
  b.object ++ (match b.method with | some m => methodToString m | none => "") ++
    "Builder" ++ (if b.idx > 0 then toString b.idx else "")

/-- Writes this builder's container name
(`ApiObjectBuilder::write_container_name`). -/
def ApiObjectBuilder.write_container_name (b : ApiObjectBuilder) : String :=
  b.write_name ++ "Container"

/-- The text written for one required property's generic slot by
`write_generics_if_necessary`, following the source's `match params`
block. -/
def write_one_generic (b : ApiObjectBuilder) (params : TypeParameters)
    (field : StructField) : String :=
  match params with
  | .ChangeOne n =>
    if field.name == n then
      b.helperModulePfx ++ "generics::" ++ toCamelCase field.name ++ "Exists"
    else toCamelCase field.name
  | .ChangeAll =>
    b.helperModulePfx ++ "generics::" ++ toCamelCase field.name ++ "Exists"
  | .ReplaceAll =>
    b.helperModulePfx ++ "generics::" ++ "Missing" ++ toCamelCase field.name
  | .Generic => toCamelCase field.name

/-- The `try_for_each` step of `write_generics_if_necessary`: the first
slot opens with `<`, later slots are preceded by `, `; the counter is
incremented per slot. -/
def genericsStep (w : StructField → String) (acc : String × Nat)
    (field : StructField) : String × Nat :=
  (acc.1 ++ (if acc.2 = 0 then "<" else ", ") ++ w field, acc.2 + 1)

/-- Writes generic parameters if needed and returns the written text plus
the number of generic slots (`ApiObjectBuilder::write_generics_if_necessary`,
whose `usize` result is the slot count). -/
def ApiObjectBuilder.write_generics_if_necessary (b : ApiObjectBuilder)
    (any_value : Option String) (params : TypeParameters) : String × Nat :=
  let p := ((b.struct_fields_iter).filter (fun f => f.prop.is_required)).foldl
    (genericsStep (write_one_generic b params)) ("", 0)
  let p := if b.needs_any then
      (p.1 ++ (if 0 < p.2 then ", " else "<") ++ (any_value.getD ANY_GENERIC_PARAMETER),
       p.2 + 1)
    else p
  if 0 < p.2 then (p.1 ++ ">", p.2) else p

/-- Returns whether this builder will have at least one field
(`ApiObjectBuilder::has_atleast_one_field`). -/
def ApiObjectBuilder.has_atleast_one_field (b : ApiObjectBuilder) : Bool :=
  (b.struct_fields_iter).any (fun f => f.prop.is_parameter || f.prop.is_required)

/-- Returns whether a separate container is needed for the builder struct
(`ApiObjectBuilder::needs_container`). -/
def ApiObjectBuilder.needs_container (b : ApiObjectBuilder) : Bool :=
  (b.local_params ++ b.global_params).any (fun p => p.required)
    || (b.body_required && b.fields.any (fun f => f.is_required)
        && decide (0 < b.local_params.length + b.global_params.length))

/-- The loop of `write_wrapped_ty`: repeatedly finds the first `>` of the
working string, emits everything before it followed by
`, {prefix}util::{Debug of the delimiter}>`, and continues after it; the
delimiter index runs from the end of the list downwards.  `none` models
the panics on index underflow/overflow; the fuel is at least the string
length at every call site, which makes the exhaustion arm unreachable. -/
def wrapLoop (pfx : List Char) (delims : List CollectionFormat) :
    Nat → Nat → List Char → List Char → Option (List Char)
  | 0, _, _, _ => none
  | fuel + 1, delimIdx, ty, newTy =>
    match findGt ty with
    | none => some newTy
    | some idx =>
      if delimIdx = 0 then none
      else
        match delims.get? (delimIdx - 1) with
        | none => none
        | some d =>
          let newTy := newTy ++ ty.take idx ++ ", ".toList ++ pfx ++
            "util::".toList ++ (collectionFormatDebug d).toList ++ [ '>' ]
          if idx = ty.length - 1 then some newTy
          else wrapLoop pfx delims fuel (delimIdx - 1) (ty.drop (idx + 1)) newTy

/-- Given the helper module prefix, a type and the delimiters for that
type, wraps nested `Vec`s into `{prefix}util::Delimited` carrying the
matching delimiter and writes the old or the new type
(`ApiObjectBuilder::write_wrapped_ty`). -/
def ApiObjectBuilder.write_wrapped_ty (modulePfx ty : String)
    (delims : List CollectionFormat) : Option String :=
  if containsVec ty.toList = false then some ty
  else
    let delimTy := modulePfx.toList ++ "util::Delimited".toList
    let ty2 := replaceVec delimTy ty.toList
    (wrapLoop modulePfx.toList delims (ty2.length + 1) delims.length ty2 []).map
      (fun l => String.mk l)

/-- Writes the body field if the body is required
(`ApiObjectBuilder::write_body_field_if_required`). -/
def ApiObjectBuilder.write_body_field_if_required (b : ApiObjectBuilder) : String :=
  if b.body_required then
    "\n    body: self::" ++ b.object ++
      (if b.needs_any then ApiObject.write_any_generic else "") ++ ","
  else ""

/-- Writes the parameter field if the property is a parameter
(`ApiObjectBuilder::write_parameter_if_required`). -/
def ApiObjectBuilder.write_parameter_if_required (b : ApiObjectBuilder)
    (prop : Property) (name ty : String) (delims : List CollectionFormat) :
    Option String :=
  if !prop.is_parameter then some ""
  else do
    let inner ← if ty == FILE_MARKER then some "std::path::PathBuf"
      else ApiObjectBuilder.write_wrapped_ty b.helperModulePfx ty delims
    some ("\n    param_" ++ name ++ ": Option<" ++ inner ++ ">,")

/-! ## The renderers (the `Display` impls of `object.rs`) -/

/-- The core type text emitted for one record field by
`Display for ApiObject`: the field's type path, with the `Any` parameter
substituted when the field needs it.  `none` models the `unreachable!` of
the `Any` substitution. -/
def object_field_core (fld : ObjectField) : Option String :=
  if fld.needs_any then
    match ApiObject.write_field_with_any fld.ty_path.toList with
    | .ok l => some (String.mk l)
    | _ => none
  else some fld.ty_path

/-- The type text emitted for one record field by `Display for ApiObject`:
the core type, wrapped in `Box<..>` when boxed, wrapped in `Option<..>`
when not required. -/
def object_field_ty (fld : ObjectField) : Option String := do
  let core ← object_field_core fld
  some ((if !fld.is_required then "Option<" else "")
    ++ (if fld.boxed then "Box<" else "")
    ++ core
    ++ (if fld.boxed then ">" else "")
    ++ (if !fld.is_required then ">" else ""))

/-- The text emitted for one record field by `Display for ApiObject`:
documentation, the `serde` rename attribute when the snake-cased (and
keyword-suffixed) name differs from the wire name, and the typed public
field declaration. -/
def renderObjectField (fld : ObjectField) : Option String := do
  let new_name := toSnekCase fld.name
  let new_name := if RUST_KEYWORDS.any (fun k => k == new_name)
    then new_name.push '_' else new_name
  let tyText ← object_field_ty fld
  some (ApiObject.write_docs fld.description 1
    ++ (if fld.description.isNone then "\n" else "")
    ++ "    "
    ++ (if new_name ≠ fld.name then "#[serde(rename = \"" ++ fld.name ++ "\")]\n    " else "")
    ++ "pub " ++ new_name ++ ": " ++ tyText ++ ",")

/-- The `Display` implementation for `ApiObject`: doc comment, derive
attribute, struct header (generic over `Any` exactly when some field needs
it) and the field declarations. -/
def ApiObject.fmt (o : ApiObject) : Option String := do
  let fieldTexts ← o.fields.mapM renderObjectField
  some (ApiObject.write_docs o.description 0
    ++ "#[derive(Debug, Default, Clone, Deserialize, Serialize)]"
    ++ "\npub struct " ++ o.name
    ++ (if o.fields.any (fun f => f.needs_any) then ApiObject.write_any_generic else "")
    ++ " \x7b"
    ++ String.join fieldTexts
    ++ (if o.fields.isEmpty then "" else "\n")
    ++ "\x7d\n")

/-- The doc-comment header of `Display for ApiObjectBuilder`. -/
def builderHeader (b : ApiObjectBuilder) : String :=
  "/// Builder " ++
    (match b.constructor_fn_name, b.method with
     | some name, some m =>
       "created by [`" ++ b.object ++ "::" ++ name ++ "`](./struct." ++ b.object
         ++ ".html#method." ++ name ++ ") method for a `"
         ++ (methodToString m).toUpper ++ "` operation associated with `"
         ++ b.object ++ "`.\n"
     | _, _ =>
       "for [`" ++ b.object ++ "`](./struct." ++ b.object ++ ".html) object.\n")

/-- The `Display` implementation for `ApiObjectBuilder`: doc header,
`repr(transparent)` when a container is needed, struct header with
typestate generics, the inner-container handle or body field, parameter
fields (written into the container when one is needed) and the
`PhantomData` markers for required properties, followed by the container
declaration itself. -/
def ApiObjectBuilder.fmt (b : ApiObjectBuilder) : Option String := do
  let needs_container := b.needs_container
  let s := builderHeader b
    ++ (if needs_container then "#[repr(transparent)]\n" else "")
    ++ "#[derive(Debug, Clone)]\npub struct " ++ b.write_name
    ++ (b.write_generics_if_necessary none TypeParameters.Generic).1
  let has_fields := b.has_atleast_one_field
  let s := s ++ (if has_fields || b.body_required || needs_container then " \x7b" else "")
  let sc := if needs_container then
      (s ++ "\n    inner: " ++ b.write_container_name
         ++ (if b.needs_any then ApiObject.write_any_generic else "") ++ ",",
       "#[derive(Debug, Default, Clone)]\nstruct " ++ b.write_container_name
         ++ (if b.needs_any then ApiObject.write_any_generic else "")
         ++ " \x7b" ++ b.write_body_field_if_required)
    else (s ++ b.write_body_field_if_required, "")
  let sc ← (b.struct_fields_iter).foldlM
    (fun (acc : String × String) field => do
      let cc := toCamelCase field.name
      let sk := toSnekCase field.name
      let ptext ← b.write_parameter_if_required field.prop sk field.ty field.delimiting
      let acc := if needs_container then (acc.1, acc.2 ++ ptext)
        else (acc.1 ++ ptext, acc.2)
      let acc := if field.prop.is_required then
          (acc.1 ++ "\n    " ++ (if field.prop.is_parameter then "_param" else "")
             ++ "_" ++ sk ++ ": core::marker::PhantomData<" ++ cc ++ ">,",
           acc.2)
        else acc
      some acc)
    sc
  let s := sc.1 ++ (if has_fields || b.body_required then "\n\x7d\n" else ";\n")
  some (s ++ (if needs_container then "\n" ++ sc.2 ++ "\n\x7d\n" else ""))

/-! ## Specification-side definitions used to state the claims -/

/-- Joins a list of strings with a separator between neighbours. -/
def joinSep (sep : String) : List String → String
  | [] => ""
  | [x] => x
  | x :: xs => x ++ sep ++ joinSep sep xs

/-- Concatenation of a list of strings (specification side). -/
def joinAll : List String → String
  | [] => ""
  | x :: xs => x ++ joinAll xs

/-- The names of the required properties of a builder, in unification
order. -/
def reqNames (b : ApiObjectBuilder) : List String :=
  ((b.struct_fields_iter).filter (fun f => f.prop.is_required)).map (fun f => f.name)

/-- The marker text the spec prescribes for one required property under
each mode: `ChangeOne(n)` turns exactly the matching property into the
satisfied marker `{Name}Exists` (qualified by the helper-module generics
prefix), `ChangeAll` turns every marker into `{Name}Exists`, `ReplaceAll`
resets every marker to `Missing{Name}`, and `Generic` keeps the plain
camel-cased name. -/
def markerSpec (pfx : String) (mode : TypeParameters) (name : String) : String :=
  match mode with
  | .ChangeOne n =>
    if name = n then pfx ++ "generics::" ++ toCamelCase name ++ "Exists"
    else toCamelCase name
  | .ChangeAll => pfx ++ "generics::" ++ toCamelCase name ++ "Exists"
  | .ReplaceAll => pfx ++ "generics::" ++ "Missing" ++ toCamelCase name
  | .Generic => toCamelCase name

/-- The full generic-parameter list the spec prescribes: the required
properties' markers in unification order, then the `Any` slot when the
builder needs it, wrapped in angle brackets, or nothing at all when there
is no slot. -/
def generics_spec (b : ApiObjectBuilder) (any_value : Option String)
    (mode : TypeParameters) : String :=
  let items := (reqNames b).map (markerSpec b.helperModulePfx mode)
    ++ (if b.needs_any then [any_value.getD ANY_GENERIC_PARAMETER] else [])
  if items = [] then "" else "<" ++ joinSep ", " items ++ ">"

/-- The marker portion of the generic-parameter list (everything before
the `Any` slot), not yet closed by `>`. -/
def markersPart (b : ApiObjectBuilder) (mode : TypeParameters) : String :=
  if reqNames b = [] then ""
  else "<" ++ joinSep ", " ((reqNames b).map (markerSpec b.helperModulePfx mode))

/-- A string of `k` closing angle brackets. -/
def gts (k : Nat) : List Char := List.replicate k '>'

/-- The type `Vec< .. Vec<leaf> .. >` with `k` nested sequence wrappers. -/
def nestVec : Nat → List Char → List Char
  | 0, leaf => leaf
  | k + 1, leaf => "Vec<".toList ++ nestVec k leaf ++ [ '>' ]

/-- The tail one `Delimited` wrapper appends after its inner type:
`, {prefix}util::{Debug of the delimiter}>`. -/
def delimSuffix (pfx : List Char) (d : CollectionFormat) : List Char :=
  ", ".toList ++ pfx ++ "util::".toList ++ (collectionFormatDebug d).toList ++ [ '>' ]

/-- The delimited rewriting of a nested sequence type the spec prescribes:
the wrapper at nesting depth `i` (0 = outermost) carries the `i`-th
delimiter of the outermost-to-innermost list. -/
def nestDelim (pfx : List Char) : List CollectionFormat → List Char → List Char
  | [], leaf => leaf
  | d :: ds, leaf =>
    pfx ++ "util::Delimited<".toList ++ nestDelim pfx ds leaf ++ delimSuffix pfx d

/-- `k` copies of the opening `repl` followed by `<`; describes the shape
of a nested type after `replace("Vec", repl)`. -/
def repQ (repl : List Char) : Nat → List Char
  | 0 => []
  | k + 1 => (repl ++ [ '<' ]) ++ repQ repl k

/-- The concatenated suffixes the loop of `write_wrapped_ty` emits, for
the delimiter list processed from the last entry down to the first. -/
def tailRep (pfx : List Char) : List CollectionFormat → List Char
  | [] => []
  | d :: ds => tailRep pfx ds ++ delimSuffix pfx d

/-- Grammar of the parameter types `write_field_with_any` is defined on:
a leaf, a sequence wrapper, or a string-keyed mapping wrapper. -/
inductive ParamTyShape where
  | leaf (s : List Char)
  | vec (t : ParamTyShape)
  | map (t : ParamTyShape)

/-- Renders a `ParamTyShape` to its Rust type text. -/
def renderShape : ParamTyShape → List Char
  | .leaf s => s
  | .vec t => "Vec<".toList ++ renderShape t ++ [ '>' ]
  | .map t => "std::collections::BTreeMap<String, ".toList ++ renderShape t ++ [ '>' ]

/-- The substitution the spec prescribes for `write_field_with_any`: keep
every known container wrapper and append the `Any` generic parameter at a
non-simple leaf. -/
def substShape : ParamTyShape → List Char
  | .leaf s => s ++ (if is_simple_typeL s then [] else ApiObject.write_any_generic.toList)
  | .vec t => "Vec<".toList ++ substShape t ++ [ '>' ]
  | .map t => "std::collections::BTreeMap<String, ".toList ++ substShape t ++ [ '>' ]

/-- Well-formedness of a `ParamTyShape`: leaves contain no `<`. -/
def goodShapeB : ParamTyShape → Bool
  | .leaf s => decide ('<' ∉ s)
  | .vec t => goodShapeB t
  | .map t => goodShapeB t

/-- Nesting depth of a `ParamTyShape`. -/
def depthShape : ParamTyShape → Nat
  | .leaf _ => 0
  | .vec t => depthShape t + 1
  | .map t => depthShape t + 1

/-! ## Concrete sample inputs for evaluation witnesses -/

/-- A builder with every list empty and every flag off, used as the base
of the concrete samples below. -/
def baseBuilder : ApiObjectBuilder :=
  { idx := 0
    description := none
    body_required := false
    helperModulePfx := "crate::"
    op_id := none
    deprecated := false
    method := none
    rel_path := none
    is_list_op := false
    response := { ty_path := none, contains_any := false }
    object := "Pet"
    encoding := none
    decoding := none
    multiple_builders_exist := false
    fields := []
    global_params := []
    local_params := []
    needs_any := false }

/-- A path-level (global) parameter named `x`, optional, with its own
description. -/
def c1Global : Parameter :=
  { name := "x"
    description := some "global"
    ty_path := "String"
    required := false
    presence := .Query
    delimiting := [] }

/-- An operation-level (local) parameter named `x`, required, with its own
description: a deliberate name-and-type collision with `c1Global`. -/
def c1Local : Parameter :=
  { name := "x"
    description := some "local"
    ty_path := "String"
    required := true
    presence := .Query
    delimiting := [] }

/-- A builder whose global and local parameter lists collide on the name
`x`. -/
def c1Builder : ApiObjectBuilder :=
  { baseBuilder with global_params := [c1Global], local_params := [c1Local] }

/-- A required parameter named `pet_id`. -/
def samplePetIdParam : Parameter :=
  { name := "pet_id"
    description := none
    ty_path := "i64"
    required := true
    presence := .Path
    delimiting := [] }

/-- A builder with one required parameter and dynamic-type support, used
to witness the `Any` generic slot. -/
def c4Builder : ApiObjectBuilder :=
  { baseBuilder with local_params := [samplePetIdParam], needs_any := true }

/-- A sample object with one optional boxed field. -/
def sampleObject : ApiObject :=
  { name := "Pet"
    description := some "A pet."
    path := "pets"
    fields := [{ name := "friend"
                 ty_path := "crate::pets::Pet"
                 description := none
                 is_required := false
                 needs_any := false
                 boxed := true
                 child_req_fields := [] }]
    paths := [] }

/-- An optional boxed field whose core type needs no substitution. -/
def c10Field : ObjectField :=
  { name := "friend"
    ty_path := "crate::pets::Pet"
    description := none
    is_required := false
    needs_any := false
    boxed := true
    child_req_fields := [] }

/-! ## General helper lemmas -/

/-- String append is associative. -/
theorem strAssoc : ∀ a b c : String, a ++ b ++ c = a ++ (b ++ c)
  | ⟨a⟩, ⟨b⟩, ⟨c⟩ => congrArg String.mk (List.append_assoc a b c)

/-- The empty string is a left identity for append. -/
theorem strNilAppend : ∀ a : String, "" ++ a = a
  | ⟨_⟩ => rfl

/-- The empty string is a right identity for append. -/
theorem strAppendNil : ∀ a : String, a ++ "" = a
  | ⟨a⟩ => congrArg String.mk (List.append_nil a)

/-! ## Claim C1 -/

/-- Claim C1 (code behaviour at the failing input): on a builder whose
global and local parameter lists both contain a parameter named `x` of the
same type, `struct_fields_iter` keeps the GLOBAL parameter's attributes
(optional, description "global"): the scan skips the later local
parameter because its name is already in the seen-set, so the first write
per name wins, contradicting the claim (and the source's own doc comment)
that the local parameter overrides the global one. -/
theorem C1_code_behavior :
    (c1Builder.struct_fields_iter).map (fun f => (f.name, f.prop, f.desc))
      = [("x", Property.OptionalParam, some "global")]
    ∧ (c1Builder.struct_fields_iter).map (fun f => (f.name, f.prop, f.desc))
      ≠ [("x", Property.RequiredParam, some "local")] := by
  constructor
  · rfl
  · decide

/-! ## Claim C2 -/

/-- Claim C2: `needs_container` returns true exactly when some global or
local parameter is required, or the body is required together with some
required field and at least one parameter of any kind. -/
theorem C2_needs_container (b : ApiObjectBuilder) :
    b.needs_container = true ↔
      ((∃ p ∈ b.global_params ++ b.local_params, p.required = true)
        ∨ (b.body_required = true ∧ (∃ fld ∈ b.fields, fld.is_required = true)
            ∧ 1 ≤ b.global_params.length + b.local_params.length)) := by
  simp only [ApiObjectBuilder.needs_container, Bool.or_eq_true, List.any_eq_true,
    Bool.and_eq_true, decide_eq_true_eq, List.mem_append]
  constructor
  · rintro (⟨p, hp, hr⟩ | ⟨⟨hb, ⟨f, hf, hfr⟩⟩, hn⟩)
    · exact Or.inl ⟨p, Or.symm hp, hr⟩
    · exact Or.inr ⟨hb, ⟨f, hf, hfr⟩, by omega⟩
  · rintro (⟨p, hp, hr⟩ | ⟨hb, ⟨f, hf, hfr⟩, hn⟩)
    · exact Or.inl ⟨p, Or.symm hp, hr⟩
    · exact Or.inr ⟨⟨hb, ⟨f, hf, hfr⟩⟩, by omega⟩

/-! ## Claim C6 -/

/-- Claim C6: the unified `StructField` built from an object field is
tagged `RequiredField` exactly when the body is required and the field is
marked required; in every other case it is tagged `OptionalField`. -/
theorem C6_field_requiredness (body_required : Bool) (fld : ObjectField) :
    ((structFieldOfField body_required fld).prop = Property.RequiredField
      ↔ (body_required = true ∧ fld.is_required = true))
    ∧ ((structFieldOfField body_required fld).prop ≠ Property.RequiredField
      → (structFieldOfField body_required fld).prop = Property.OptionalField) := by
  cases body_required <;> cases h : fld.is_required <;>
    simp [structFieldOfField, h]

/-! ## Claim C5 -/

/-- The collision loop step either leaves the accumulated name list
unchanged (collision: the new entry is dropped) or appends the new name at
the end (no collision). -/
theorem addStructField_names (acc : List StructField) (fld : StructField) :
    (addStructField acc fld).map (fun f => f.name) =
      if fld.name ∈ acc.map (fun f => f.name) then acc.map (fun f => f.name)
      else acc.map (fun f => f.name) ++ [fld.name] := by
  induction acc with
  | nil => simp [addStructField]
  | cons f rest ih =>
    by_cases h : f.name = fld.name
    · by_cases hty : f.ty = fld.ty <;> simp [addStructField, h, hty]
    · have hne : ¬ fld.name = f.name := fun hh => h hh.symm
      simp only [addStructField, if_neg h, List.map_cons, List.mem_cons, hne, false_or]
      rw [ih]
      by_cases hm : fld.name ∈ rest.map (fun f => f.name) <;> simp [hm]

/-- Folding the collision loop over any input keeps the accumulated name
list duplicate-free. -/
theorem foldl_addStructField_nodup :
    ∀ (l acc : List StructField), (acc.map (fun f => f.name)).Nodup →
      ((l.foldl addStructField acc).map (fun f => f.name)).Nodup := by
  intro l
  induction l with
  | nil => intro acc h; exact h
  | cons x xs ih =>
    intro acc h
    simp only [List.foldl_cons]
    apply ih
    rw [addStructField_names]
    by_cases hm : x.name ∈ acc.map (fun f => f.name)
    · simpa [hm] using h
    · simp only [hm, if_false]
      simp [List.nodup_append, h, hm]

/-- Claim C5: for every builder, the unified sequence produced by
`struct_fields_iter` contains no two entries sharing a name. -/
theorem C5_names_nodup (b : ApiObjectBuilder) :
    (((b.struct_fields_iter).map (fun f => f.name))).Nodup := by
  unfold ApiObjectBuilder.struct_fields_iter
  exact foldl_addStructField_nodup _ [] (by simp)

/-! ## Claim C7 -/

/-- Claim C7: rendering is deterministic — the `Display` texts of
`ApiObject` and `ApiObjectBuilder` are pure functions of the model
contents, so equal inputs render to byte-identical output.  In this
embedding both renderers are total functions of the input: the source's
`HashSet` is used only for membership tests (never iterated) and the
`BTreeMap`s are not iterated by either `Display` impl, so no map or set
iteration order can influence the text. -/
theorem C7_deterministic (o₁ o₂ : ApiObject) (b₁ b₂ : ApiObjectBuilder)
    (ho : o₁ = o₂) (hb : b₁ = b₂) :
    ApiObject.fmt o₁ = ApiObject.fmt o₂
      ∧ ApiObjectBuilder.fmt b₁ = ApiObjectBuilder.fmt b₂ := by
  subst ho; subst hb; exact ⟨rfl, rfl⟩

/-- Witness for C7 at concrete inputs. -/
theorem C7_deterministic_witness :
    ApiObject.fmt sampleObject = ApiObject.fmt sampleObject
      ∧ ApiObjectBuilder.fmt c4Builder = ApiObjectBuilder.fmt c4Builder :=
  C7_deterministic sampleObject sampleObject c4Builder c4Builder rfl rfl

/-! ## Claim C10 -/

/-- Claim C10: in the `ApiObject` record rendering, a field that is not
required has its emitted type wrapped in `Option<..>` (with `Box<..>`
immediately inside when the field is boxed), and a required field is
emitted without the `Option` wrapper. -/
theorem C10_option_wrapping (fld : ObjectField) (core : String)
    (h : object_field_core fld = some core) :
    object_field_ty fld = some
      (if fld.is_required then (if fld.boxed then "Box<" ++ core ++ ">" else core)
       else "Option<" ++ (if fld.boxed then "Box<" ++ core ++ ">" else core) ++ ">") := by
  simp only [object_field_ty, h, Option.bind_eq_bind, Option.some_bind]
  cases hr : fld.is_required <;> cases hb : fld.boxed <;>
    simp [hr, hb, ← strAssoc, strNilAppend, strAppendNil]

/-- Witness for C10 at a concrete optional boxed field. -/
theorem C10_option_wrapping_witness :
    object_field_ty c10Field = some
      (if c10Field.is_required
       then (if c10Field.boxed then "Box<" ++ "crate::pets::Pet" ++ ">" else "crate::pets::Pet")
       else "Option<" ++ (if c10Field.boxed then "Box<" ++ "crate::pets::Pet" ++ ">"
            else "crate::pets::Pet") ++ ">") :=
  C10_option_wrapping c10Field "crate::pets::Pet" rfl

/-! ## Claims C3 and C4: the typestate generic synthesizer -/

/-- The text the source writes for one required slot agrees with the
spec-side marker description, mode by mode. -/
theorem write_one_generic_eq_markerSpec (b : ApiObjectBuilder)
    (mode : TypeParameters) (f : StructField) :
    write_one_generic b mode f = markerSpec b.helperModulePfx mode f.name := by
  cases mode <;> simp [write_one_generic, markerSpec, beq_iff_eq]

/-- Characterization of the `try_for_each` fold once at least one slot has
been written: every further slot is preceded by `, `. -/
theorem genericsStep_foldl (w : StructField → String) :
    ∀ (l : List StructField) (s : String) (n : Nat), 0 < n →
      l.foldl (genericsStep w) (s, n)
        = (s ++ joinAll (l.map (fun f => ", " ++ w f)), n + l.length) := by
  intro l
  induction l with
  | nil => intro s n _; simp [joinAll, strAppendNil]
  | cons x xs ih =>
    intro s n hn
    have hn0 : ¬ n = 0 := Nat.pos_iff_ne_zero.mp hn
    simp only [List.foldl_cons, genericsStep, if_neg hn0]
    rw [ih _ _ (Nat.succ_pos n)]
    simp only [List.map_cons, joinAll, Prod.mk.injEq]
    constructor
    · simp [strAssoc]
    · simp [List.length_cons]; omega

/-- `joinSep` of a nonempty list is its head followed by the separated
tail. -/
theorem joinSep_cons_eq (x : String) (xs : List String) :
    joinSep ", " (x :: xs) = x ++ joinAll (xs.map (fun y => ", " ++ y)) := by
  induction xs generalizing x with
  | nil => simp [joinSep, joinAll, strAppendNil]
  | cons y ys ih =>
    simp only [joinSep, List.map_cons, joinAll]
    rw [ih y]
    simp [strAssoc]

/-- `joinSep` over a list extended by one element on the right. -/
theorem joinSep_append_last (l : List String) (a : String) (h : l ≠ []) :
    joinSep ", " (l ++ [a]) = joinSep ", " l ++ ", " ++ a := by
  induction l with
  | nil => exact absurd rfl h
  | cons x xs ih =>
    cases xs with
    | nil => simp [joinSep]
    | cons y ys =>
      have h2 := ih (by simp)
      simp only [List.cons_append, List.append_eq] at h2 ⊢
      simp only [joinSep]
      rw [h2]
      simp [strAssoc]

/-- Full characterization of `write_generics_if_necessary`: the written
text is exactly the bracketed, comma-separated list of the required
properties' spec-side markers followed by the `Any` slot when needed, and
the returned count is the number of required properties plus one for the
`Any` slot. -/
theorem write_generics_characterization (b : ApiObjectBuilder)
    (any_value : Option String) (mode : TypeParameters) :
    (b.write_generics_if_necessary any_value mode).1 = generics_spec b any_value mode
    ∧ (b.write_generics_if_necessary any_value mode).2
        = (reqNames b).length + (if b.needs_any then 1 else 0) := by
  have hw : write_one_generic b mode
      = fun f => markerSpec b.helperModulePfx mode f.name :=
    funext (write_one_generic_eq_markerSpec b mode)
  have hcomp : (fun f : StructField => markerSpec b.helperModulePfx mode f.name)
      = (markerSpec b.helperModulePfx mode ∘ fun f : StructField => f.name) := rfl
  simp only [ApiObjectBuilder.write_generics_if_necessary, generics_spec, reqNames]
  rw [hw, List.map_map, hcomp]
  generalize (markerSpec b.helperModulePfx mode ∘ fun f : StructField => f.name) = w
  generalize any_value.getD ANY_GENERIC_PARAMETER = aT
  generalize List.filter (fun f => f.prop.is_required) b.struct_fields_iter = l
  cases l with
  | nil =>
    cases hna : b.needs_any <;>
      simp [hna, joinSep, strNilAppend, strAssoc]
  | cons x xs =>
    have hfold : List.foldl (genericsStep w) ("", 0) (x :: xs)
        = ("<" ++ w x ++ joinAll (xs.map (fun f => ", " ++ w f)), 1 + xs.length) := by
      simp only [List.foldl_cons]
      rw [show genericsStep w ("", 0) x = ("<" ++ w x, 1) from by
        simp [genericsStep, strNilAppend]]
      rw [genericsStep_foldl w xs _ 1 Nat.one_pos]
    have hjoin : joinSep ", " ((x :: xs).map w)
        = w x ++ joinAll (xs.map (fun f => ", " ++ w f)) := by
      rw [List.map_cons, joinSep_cons_eq, List.map_map]
      rfl
    have hpos : 0 < 1 + xs.length := by omega
    rw [hfold]
    cases hna : b.needs_any with
    | false =>
      constructor
      · have hne : ¬ ((x :: xs).map w ++ ([] : List String) = []) := by simp
        simp only [Bool.false_eq_true, ite_false, List.append_nil, hpos, ite_true,
          if_neg hne]
        rw [hjoin]
        simp [strAssoc]
      · simp [hpos]
        omega
    | true =>
      have hne : (x :: xs).map w ≠ [] := by simp
      have happ := joinSep_append_last ((x :: xs).map w) aT hne
      constructor
      · have hne2 : ¬ ((x :: xs).map w ++ [aT] = []) := by simp
        have hpos2 : 0 < 1 + xs.length + 1 := by omega
        simp only [ite_true, hpos, hpos2, if_neg hne2]
        rw [happ, hjoin]
        simp [strAssoc]
      · simp [hpos]
        omega

/-- Claim C3: the text written by `write_generics_if_necessary` renders
each required property's marker per mode — under `ChangeOne(n)` exactly
the property named `n` becomes the qualified satisfied marker
`{Name}Exists` and all others keep their plain camel-cased name, under
`ChangeAll` every marker becomes `{Name}Exists`, under `ReplaceAll` every
marker becomes `Missing{Name}`, and under `Generic` every marker is the
plain camel-cased name — with markers in unification order, only for
required properties (`markerSpec`/`generics_spec` state exactly this). -/
theorem C3_marker_modes (b : ApiObjectBuilder) (any_value : Option String)
    (mode : TypeParameters) :
    (b.write_generics_if_necessary any_value mode).1 = generics_spec b any_value mode :=
  (write_generics_characterization b any_value mode).1

/-- Claim C4: when the builder needs `Any`, the `Any`-capability parameter
is emitted exactly once, in the last generic slot after all required
markers, with text `any_value` (or the `Any` sentinel) that does not
depend on the selected mode, and the returned count is the number of
required properties plus one. -/
theorem C4_any_slot (b : ApiObjectBuilder) (any_value : Option String)
    (mode : TypeParameters) (h : b.needs_any = true) :
    (b.write_generics_if_necessary any_value mode).2 = (reqNames b).length + 1
    ∧ (b.write_generics_if_necessary any_value mode).1
        = markersPart b mode ++ (if (reqNames b).length = 0 then "<" else ", ")
            ++ (any_value.getD ANY_GENERIC_PARAMETER) ++ ">" := by
  obtain ⟨hs, hc⟩ := write_generics_characterization b any_value mode
  constructor
  · rw [hc, h]; simp
  · rw [hs]
    unfold generics_spec markersPart
    cases hr : reqNames b with
    | nil =>
      simp [h, joinSep, strNilAppend, strAssoc]
    | cons x xs =>
      have hne : (x :: xs).map (markerSpec b.helperModulePfx mode) ≠ [] := by simp
      have happ := joinSep_append_last ((x :: xs).map (markerSpec b.helperModulePfx mode))
        (any_value.getD ANY_GENERIC_PARAMETER) hne
      have hne2 : ¬ ((x :: xs).map (markerSpec b.helperModulePfx mode)
          ++ [any_value.getD ANY_GENERIC_PARAMETER] = []) := by simp
      simp only [h, ite_true, if_neg hne2, List.length_cons]
      rw [happ]
      have hne3 : ¬ (x :: xs = ([] : List String)) := by simp
      simp only [if_neg hne3, if_neg (by omega : ¬ (xs.length + 1 = 0))]
      simp [strAssoc]

/-- Witness for C4 at a concrete builder with one required parameter and
dynamic-type support. -/
theorem C4_any_slot_witness :
    (c4Builder.write_generics_if_necessary none TypeParameters.Generic).2
        = (reqNames c4Builder).length + 1
    ∧ (c4Builder.write_generics_if_necessary none TypeParameters.Generic).1
        = markersPart c4Builder TypeParameters.Generic
            ++ (if (reqNames c4Builder).length = 0 then "<" else ", ")
            ++ (Option.getD none ANY_GENERIC_PARAMETER) ++ ">" :=
  C4_any_slot c4Builder none TypeParameters.Generic rfl

/-! ## Claim C9: `write_field_with_any` -/

/-- `findLt` finds nothing in a list without `<`. -/
theorem findLt_eq_none_of_not_mem : ∀ s : List Char, '<' ∉ s → findLt s = none
  | [], _ => rfl
  | c :: rest, h => by
    have h1 : ¬ c = '<' := fun e => h (e ▸ List.mem_cons_self c rest)
    have h2 : '<' ∉ rest := fun m => h (List.mem_cons_of_mem c m)
    simp [findLt, h1, findLt_eq_none_of_not_mem rest h2]

/-- The nesting depth of a shape is at most the length of its rendering. -/
theorem depthShape_le_length (t : ParamTyShape) :
    depthShape t ≤ (renderShape t).length := by
  induction t with
  | leaf s => simp [depthShape]
  | vec t ih => simp [depthShape, renderShape]; omega
  | map t ih => simp [depthShape, renderShape]; omega

/-- With enough fuel, `write_field_with_any` maps the rendering of every
well-formed wrapper shape to the rendering of its substituted shape. -/
theorem wfa_fuel : ∀ (t : ParamTyShape), goodShapeB t = true →
    ∀ fuel, depthShape t < fuel →
      write_field_with_any_fuel fuel (renderShape t) = .ok (substShape t) := by
  intro t
  induction t with
  | leaf s =>
    intro hg fuel hf
    cases fuel with
    | zero => omega
    | succ fuel =>
      have hnm : '<' ∉ s := of_decide_eq_true hg
      have hnone : findLt s = none := findLt_eq_none_of_not_mem s hnm
      simp [renderShape, write_field_with_any_fuel, hnone, substShape]
  | vec t ih =>
    intro hg fuel hf
    cases fuel with
    | zero => simp [depthShape] at hf
    | succ fuel =>
      have hrec := ih hg fuel (by simp [depthShape] at hf; omega)
      have hform : renderShape (.vec t)
          = 'V' :: 'e' :: 'c' :: '<' :: (renderShape t ++ [ '>' ]) := by
        simp [renderShape]
      have hfind : findLt ('V' :: 'e' :: 'c' :: '<' :: (renderShape t ++ [ '>' ]))
          = some 3 := by
        simp [findLt]
      rw [hform]
      simp only [write_field_with_any_fuel, hfind]
      simp [hrec, substShape, List.dropLast_concat]
  | map t ih =>
    intro hg fuel hf
    cases fuel with
    | zero => simp [depthShape] at hf
    | succ fuel =>
      have hrec := ih hg fuel (by simp [depthShape] at hf; omega)
      have hform : renderShape (.map t)
          = "std::collections::BTreeMap<String, ".toList ++ (renderShape t ++ [ '>' ]) := by
        simp [renderShape]
      have hfind : findLt ("std::collections::BTreeMap<String, ".toList
          ++ (renderShape t ++ [ '>' ])) = some 26 := by
        simp [findLt]
      have htake26 : (("std::collections::BTreeMap<String, ".toList
          ++ (renderShape t ++ [ '>' ]))).take 26
          = "std::collections::BTreeMap".toList := by
        rw [List.take_append_of_le_length (by decide)]
        decide
      have htake35 : (("std::collections::BTreeMap<String, ".toList
          ++ (renderShape t ++ [ '>' ]))).take (26 + 9)
          = "std::collections::BTreeMap<String, ".toList :=
        List.take_left' (by decide)
      have hdrop35 : (("std::collections::BTreeMap<String, ".toList
          ++ (renderShape t ++ [ '>' ]))).drop (26 + 9) = renderShape t ++ [ '>' ] :=
        List.drop_left' (by decide)
      have hs1 : ("Vec".toList.isSuffixOf "std::collections::BTreeMap".toList) = false := by
        decide
      have hs2 : ("std::collections::BTreeMap".toList.isSuffixOf
          "std::collections::BTreeMap".toList) = true := by decide
      rw [hform]
      simp only [write_field_with_any_fuel, hfind, htake26, htake35, hdrop35, hs1, hs2,
        Bool.false_eq_true, eq_self_iff_true, if_false, if_true, ite_false, ite_true,
        List.dropLast_concat, hrec]
      simp [substShape, List.append_assoc]

/-- Claim C9: on every type built exclusively from sequence wrappers
(`Vec<..>`) and string-keyed mapping wrappers
(`std::collections::BTreeMap<String, ..>`) around a plain leaf,
`write_field_with_any` terminates normally with the substituted text (the
`Any` parameter appended at a non-simple leaf); and on an input with any
other generic wrapper shape it reaches the `unreachable!` branch instead
of producing output. -/
theorem C9_write_field_with_any :
    (∀ t : ParamTyShape, goodShapeB t = true →
      ApiObject.write_field_with_any (renderShape t) = .ok (substShape t))
    ∧ ApiObject.write_field_with_any
        ("std::collections::HashMap<String, i64>".toList) = .invalidGeneric := by
  constructor
  · intro t hg
    exact wfa_fuel t hg _ (by
      have := depthShape_le_length t
      omega)
  · decide

/-- Witness for C9 at a concrete sequence-of-mapping shape. -/
theorem C9_write_field_with_any_witness :
    goodShapeB (ParamTyShape.vec (ParamTyShape.map (ParamTyShape.leaf "crate::Pet".toList)))
        = true
    ∧ ApiObject.write_field_with_any
        (renderShape (ParamTyShape.vec (ParamTyShape.map
          (ParamTyShape.leaf "crate::Pet".toList))))
      = .ok (substShape (ParamTyShape.vec (ParamTyShape.map
          (ParamTyShape.leaf "crate::Pet".toList)))) :=
  ⟨by decide, C9_write_field_with_any.1
    (ParamTyShape.vec (ParamTyShape.map (ParamTyShape.leaf "crate::Pet".toList)))
    (by decide)⟩

/-! ## Claim C8: `write_wrapped_ty` -/

/-- `vec3` fails on any list not starting with `V`. -/
theorem vec3_eq_none_of_ne (a : Char) (x : List Char) (h : ¬ a = 'V') :
    vec3 (a :: x) = none := by
  cases x with
  | nil => rfl
  | cons b y =>
    cases y with
    | nil => rfl
    | cons c z => simp [vec3, h]

/-- `startsVec` fails on any list not starting with `V`. -/
theorem startsVec_cons_ne (a : Char) (x : List Char) (h : ¬ a = 'V') :
    startsVec (a :: x) = false := by
  simp [startsVec, vec3_eq_none_of_ne a x h]

/-- `startsVec` fails when the second character is not `e`. -/
theorem startsVec_cons2_ne (a b : Char) (x : List Char) (h : ¬ b = 'e') :
    startsVec (a :: b :: x) = false := by
  cases x with
  | nil => rfl
  | cons c z => simp [startsVec, vec3, h]

/-- `startsVec` fails when the third character is not `c`. -/
theorem startsVec_cons3_ne (a b c : Char) (x : List Char) (h : ¬ c = 'c') :
    startsVec (a :: b :: c :: x) = false := by
  simp [startsVec, vec3, h]

/-- `startsVec` only inspects the first three characters. -/
theorem startsVec_cons3_congr (a b c : Char) (x y : List Char) :
    startsVec (a :: b :: c :: x) = startsVec (a :: b :: c :: y) := by
  by_cases hc : (a = 'V' ∧ b = 'e' ∧ c = 'c') <;> simp [startsVec, vec3, hc]

/-- A run of `>` does not start with `Vec`. -/
theorem startsVec_gts (j : Nat) : startsVec (gts j) = false := by
  cases j with
  | zero => rfl
  | succ j =>
    simp only [gts, List.replicate_succ]
    exact startsVec_cons_ne '>' _ (by decide)

/-- Appending a run of `>` cannot create a `Vec` at the front. -/
theorem startsVec_append_gts (x : List Char) (j : Nat) (h : startsVec x = false) :
    startsVec (x ++ gts j) = false := by
  cases x with
  | nil => simpa using startsVec_gts j
  | cons a x1 =>
    cases x1 with
    | nil =>
      cases j with
      | zero => simpa [gts] using h
      | succ j =>
        simp only [gts, List.replicate_succ, List.cons_append, List.nil_append]
        exact startsVec_cons2_ne a '>' _ (by decide)
    | cons b x2 =>
      cases x2 with
      | nil =>
        cases j with
        | zero => simpa [gts] using h
        | succ j =>
          simp only [gts, List.replicate_succ, List.cons_append, List.nil_append]
          exact startsVec_cons3_ne a b '>' _ (by decide)
      | cons c y =>
        show startsVec (a :: b :: c :: (y ++ gts j)) = false
        rw [startsVec_cons3_congr a b c (y ++ gts j) y]
        exact h

/-- A run of `>` contains no `Vec`. -/
theorem containsVec_gts (j : Nat) : containsVec (gts j) = false := by
  induction j with
  | zero => rfl
  | succ j ih =>
    simp only [gts, List.replicate_succ] at ih ⊢
    simp [containsVec, startsVec_cons_ne '>' _ (by decide), ih]

/-- Appending a run of `>` to a `Vec`-free list keeps it `Vec`-free. -/
theorem containsVec_append_gts (l : List Char) (j : Nat)
    (h : containsVec l = false) : containsVec (l ++ gts j) = false := by
  induction l with
  | nil => simpa using containsVec_gts j
  | cons c rest ih =>
    simp only [containsVec, Bool.or_eq_false_iff] at h
    simp only [List.cons_append, containsVec, Bool.or_eq_false_iff]
    refine ⟨?_, ih h.2⟩
    exact startsVec_append_gts (c :: rest) j h.1

/-- `replace("Vec", ..)` leaves a `Vec`-free list unchanged. -/
theorem replaceVecAux_id (repl : List Char) :
    ∀ (fuel : Nat) (l : List Char), containsVec l = false →
      replaceVecAux repl fuel l = l := by
  intro fuel
  induction fuel with
  | zero => intro l _; rfl
  | succ fuel ih =>
    intro l h
    cases l with
    | nil => rfl
    | cons c rest =>
      simp only [containsVec, Bool.or_eq_false_iff] at h
      cases hv : vec3 (c :: rest) with
      | some z =>
        exfalso
        have h1 := h.1
        simp [startsVec, hv] at h1
      | none =>
        simp only [replaceVecAux, hv]
        rw [ih rest h.2]

/-- Length of a nested sequence type. -/
theorem nestVec_length (k : Nat) (leaf : List Char) :
    (nestVec k leaf).length = 5 * k + leaf.length := by
  induction k with
  | zero => simp [nestVec]
  | succ k ih => simp [nestVec, ih]; omega

/-- `replace("Vec", repl)` on a nested sequence type (followed by a run of
`>`) yields the repeated replacement opening, the untouched leaf and the
collected closing run. -/
theorem replaceVecAux_nest (repl leaf : List Char)
    (hleaf : containsVec leaf = false) :
    ∀ (k j fuel : Nat), 5 * k + leaf.length + j ≤ fuel →
      replaceVecAux repl fuel (nestVec k leaf ++ gts j)
        = repQ repl k ++ leaf ++ gts (k + j) := by
  intro k
  induction k with
  | zero =>
    intro j fuel hf
    have h1 : containsVec (leaf ++ gts j) = false := containsVec_append_gts leaf j hleaf
    simp only [nestVec, repQ, List.nil_append, Nat.zero_add]
    exact replaceVecAux_id repl fuel (leaf ++ gts j) h1
  | succ k ih =>
    intro j fuel hf
    have hshape : nestVec (k + 1) leaf ++ gts j
        = 'V' :: 'e' :: 'c' :: '<' :: (nestVec k leaf ++ gts (j + 1)) := by
      simp [nestVec, gts, List.replicate_succ, List.append_assoc]
    rw [hshape]
    cases fuel with
    | zero => omega
    | succ fuel =>
      have hv : vec3 ('V' :: 'e' :: 'c' :: '<' :: (nestVec k leaf ++ gts (j + 1)))
          = some ('<' :: (nestVec k leaf ++ gts (j + 1))) := by
        simp [vec3]
      simp only [replaceVecAux, hv]
      cases fuel with
      | zero => omega
      | succ fuel =>
        have hv2 : vec3 ('<' :: (nestVec k leaf ++ gts (j + 1))) = none :=
          vec3_eq_none_of_ne '<' _ (by decide)
        simp only [replaceVecAux, hv2]
        rw [ih (j + 1) fuel (by omega)]
        have harith : k + (j + 1) = k + 1 + j := by omega
        rw [harith]
        simp [repQ, List.append_assoc]

/-- `findGt` finds nothing in a list without `>`. -/
theorem findGt_eq_none_of_not_mem : ∀ l : List Char, '>' ∉ l → findGt l = none
  | [], _ => rfl
  | c :: rest, h => by
    have h1 : ¬ c = '>' := fun e => h (e ▸ List.mem_cons_self c rest)
    have h2 : '>' ∉ rest := fun m => h (List.mem_cons_of_mem c m)
    simp [findGt, h1, findGt_eq_none_of_not_mem rest h2]

/-- `findGt` over an append whose first part has no `>`. -/
theorem findGt_append_none (l1 l2 : List Char) (h : findGt l1 = none) :
    findGt (l1 ++ l2) = (findGt l2).map (· + l1.length) := by
  induction l1 with
  | nil => cases hf : findGt l2 <;> simp [hf]
  | cons c rest ih =>
    by_cases hc : c = '>'
    · exfalso; simp [findGt, hc] at h
    · have hrest : findGt rest = none := by
        simp only [findGt, if_neg hc] at h
        cases hr : findGt rest
        · rfl
        · simp [hr] at h
      have hstep : findGt ((c :: rest) ++ l2) = (findGt (rest ++ l2)).map (· + 1) := by
        simp [findGt, hc]
      rw [hstep, ih hrest]
      cases hf : findGt l2 with
      | none => simp [hf]
      | some i =>
        simp only [hf, Option.map_some', Option.some.injEq, List.length_cons]
        omega

/-- The first `>` of a nonempty run of `>` is at index 0. -/
theorem findGt_gts (m : Nat) (h : 1 ≤ m) : findGt (gts m) = some 0 := by
  cases m with
  | zero => omega
  | succ m => simp [gts, List.replicate_succ, findGt]

/-- A character other than `<` that is not in the replacement text is not
in the repeated replacement opening. -/
theorem not_mem_repQ (repl : List Char) (c : Char) (k : Nat)
    (h : c ∉ repl) (hc : ¬ c = '<') : c ∉ repQ repl k := by
  induction k with
  | zero => simp [repQ]
  | succ k ih => simp [repQ, h, hc, ih]

/-- The loop suffixes for a delimiter list extended on the right. -/
theorem tailRep_append_last (pfx : List Char) (ds : List CollectionFormat)
    (d : CollectionFormat) :
    tailRep pfx (ds ++ [d]) = delimSuffix pfx d ++ tailRep pfx ds := by
  induction ds with
  | nil => simp [tailRep]
  | cons x xs ih =>
    simp only [List.cons_append, tailRep, List.append_eq]
    rw [ih]
    simp [List.append_assoc]

/-- The tail phase of the `write_wrapped_ty` loop: on a run of `m` closing
brackets with `m` delimiters left, it appends the loop suffixes for the
delimiters at indices `m-1` down to `0`. -/
theorem wrapLoop_gts (pfx : List Char) (delims : List CollectionFormat) :
    ∀ (m fuel : Nat) (acc : List Char), 1 ≤ m → m ≤ delims.length → m ≤ fuel →
      wrapLoop pfx delims fuel m (gts m) acc
        = some (acc ++ tailRep pfx (delims.take m)) := by
  intro m
  induction m with
  | zero => intro fuel acc h _ _; omega
  | succ m ih =>
    intro fuel acc h1 h2 h3
    cases fuel with
    | zero => omega
    | succ fuel =>
      have hfind : findGt (gts (m + 1)) = some 0 := findGt_gts (m + 1) (by omega)
      have hm : m < delims.length := by omega
      have hget : delims[m]? = some delims[m] := List.getElem?_eq_getElem hm
      have hgetq : delims.get? m = some delims[m] := by
        rw [List.get?_eq_getElem?, hget]
      have hlen : (gts (m + 1)).length = m + 1 := by simp [gts]
      have htk : delims.take (m + 1) = delims.take m ++ [delims[m]] := by
        rw [List.take_succ, hget]
        rfl
      simp only [wrapLoop, hfind]
      rw [if_neg (by omega : ¬ (m + 1 = 0))]
      simp only [Nat.add_sub_cancel, hgetq, hlen, List.take_zero, List.append_nil,
        Nat.zero_add, List.drop_one]
      by_cases hm0 : m = 0
      · subst hm0
        rw [if_pos rfl]
        rw [htk]
        simp [tailRep, List.take_zero, delimSuffix, List.append_assoc]
      · rw [if_neg (by omega : ¬ ((0 : Nat) = m))]
        have htail : (gts (m + 1)).tail = gts m := by
          simp [gts, List.replicate_succ]
        rw [htail]
        rw [ih fuel _ (by omega) (by omega) (by omega)]
        rw [htk, tailRep_append_last]
        simp [delimSuffix, List.append_assoc]

/-- Flattening of the spec-side nested delimited type: repeated openings,
the leaf, then the collected suffixes. -/
theorem nestDelim_flatten (pfx : List Char) (ds : List CollectionFormat)
    (leaf : List Char) :
    nestDelim pfx ds leaf
      = repQ (pfx ++ "util::Delimited".toList) ds.length ++ leaf
          ++ tailRep pfx ds := by
  induction ds with
  | nil => simp [nestDelim, repQ, tailRep]
  | cons d ds ih =>
    have hsplit : ("util::Delimited<".toList : List Char)
        = "util::Delimited".toList ++ [ '<' ] := by decide
    simp only [nestDelim, repQ, tailRep, List.length_cons, ih, hsplit]
    simp [List.append_assoc]

/-- The full `write_wrapped_ty` loop on a `>`-free head followed by `k`
closing brackets: it emits the head and then the loop suffixes for the
first `k` delimiters, from the last one down to the first. -/
theorem wrapLoop_main (pfx : List Char) (delims : List CollectionFormat)
    (T : List Char) (hT : findGt T = none) :
    ∀ (k fuel : Nat), 1 ≤ k → k ≤ delims.length → T.length + k ≤ fuel →
      wrapLoop pfx delims fuel k (T ++ gts k) []
        = some (T ++ tailRep pfx (delims.take k)) := by
  intro k fuel h1 h2 h3
  cases fuel with
  | zero => omega
  | succ fuel =>
    have hfind : findGt (T ++ gts k) = some T.length := by
      rw [findGt_append_none T (gts k) hT, findGt_gts k h1]
      simp
    have hm : k - 1 < delims.length := by omega
    have hget : delims[k - 1]? = some delims[k - 1] := List.getElem?_eq_getElem hm
    have hgetq : delims.get? (k - 1) = some delims[k - 1] := by
      rw [List.get?_eq_getElem?, hget]
    have htk : delims.take k = delims.take (k - 1) ++ [delims[k - 1]] := by
      have h := @List.take_succ _ delims (k - 1)
      rw [hget] at h
      rw [show k - 1 + 1 = k from by omega] at h
      simpa using h
    have hlen2 : (T ++ gts k).length = T.length + k := by simp [gts]
    simp only [wrapLoop, hfind]
    rw [if_neg (by omega : ¬ (k = 0))]
    simp only [hgetq, List.take_left, List.nil_append]
    by_cases hk1 : k = 1
    · subst hk1
      rw [if_pos (by simp [hlen2])]
      rw [htk]
      simp [tailRep, delimSuffix, List.append_assoc]
    · rw [if_neg (by rw [hlen2]; omega)]
      have hgt : T ++ gts k = (T ++ [ '>' ]) ++ gts (k - 1) := by
        have e : k = k - 1 + 1 := by omega
        calc T ++ gts k = T ++ gts (k - 1 + 1) := by rw [← e]
          _ = T ++ ('>' :: gts (k - 1)) := by simp [gts, List.replicate_succ]
          _ = (T ++ [ '>' ]) ++ gts (k - 1) := by simp
      have hdrop : (T ++ gts k).drop (T.length + 1) = gts (k - 1) := by
        rw [hgt]
        exact List.drop_left' (by simp)
      rw [hdrop]
      rw [wrapLoop_gts pfx delims (k - 1) fuel _ (by omega) (by omega) (by omega)]
      rw [htk, tailRep_append_last]
      simp [delimSuffix, List.append_assoc]

/-- Claim C8: on a type that is `k` nested sequence wrappers around a
`Vec`-free, `>`-free leaf, with a delimiter list of length `k` given
outermost-to-innermost, `write_wrapped_ty` rewrites each `Vec` level into
the `Delimited` wrapper so that the wrapper at nesting depth `i`
(0 = outermost) carries the `i`-th delimiter; and a type containing no
`Vec` is written unchanged. -/
theorem C8_wrapped_ty (pfx leaf : String) (k : Nat)
    (delims : List CollectionFormat)
    (hk : 1 ≤ k) (hlen : delims.length = k)
    (hleafV : containsVec leaf.toList = false)
    (hleafG : '>' ∉ leaf.toList) (hpfxG : '>' ∉ pfx.toList) :
    (ApiObjectBuilder.write_wrapped_ty pfx (String.mk (nestVec k leaf.toList)) delims
        = some (String.mk (nestDelim pfx.toList delims leaf.toList)))
    ∧ (∀ ty : String, containsVec ty.toList = false →
        ApiObjectBuilder.write_wrapped_ty pfx ty delims = some ty) := by
  constructor
  · obtain ⟨k', rfl⟩ : ∃ k', k = k' + 1 := ⟨k - 1, by omega⟩
    have hform : nestVec (k' + 1) leaf.toList
        = 'V' :: 'e' :: 'c' :: '<' :: (nestVec k' leaf.toList ++ [ '>' ]) := by
      simp [nestVec]
    have hcv : containsVec (nestVec (k' + 1) leaf.toList) = true := by
      rw [hform]
      simp [containsVec, startsVec, vec3]
    have hmk : (String.mk (nestVec (k' + 1) leaf.toList)).toList
        = nestVec (k' + 1) leaf.toList := rfl
    have hrep : replaceVec (pfx.toList ++ "util::Delimited".toList)
        (nestVec (k' + 1) leaf.toList)
        = repQ (pfx.toList ++ "util::Delimited".toList) (k' + 1) ++ leaf.toList
            ++ gts (k' + 1) := by
      have h0 := replaceVecAux_nest (pfx.toList ++ "util::Delimited".toList)
        leaf.toList hleafV (k' + 1) 0 ((nestVec (k' + 1) leaf.toList).length)
        (by rw [nestVec_length]; omega)
      rw [replaceVec]
      simpa [gts] using h0
    have hPg : '>' ∉ (pfx.toList ++ "util::Delimited".toList) := by
      intro hmem
      rcases List.mem_append.mp hmem with h | h
      · exact hpfxG h
      · exact absurd h (by decide)
    have hTg : '>' ∉ (repQ (pfx.toList ++ "util::Delimited".toList) (k' + 1)
        ++ leaf.toList) := by
      intro hmem
      rcases List.mem_append.mp hmem with h | h
      · exact not_mem_repQ _ '>' (k' + 1) hPg (by decide) h
      · exact hleafG h
    have hT := findGt_eq_none_of_not_mem _ hTg
    have hlen3 : ((repQ (pfx.toList ++ "util::Delimited".toList) (k' + 1)
        ++ leaf.toList) ++ gts (k' + 1)).length
        = (repQ (pfx.toList ++ "util::Delimited".toList) (k' + 1)
            ++ leaf.toList).length + (k' + 1) := by
      simp [gts]
      omega
    have hcv2 : containsVec (nestVec (k' + 1) leaf.data) = true := hcv
    simp only [ApiObjectBuilder.write_wrapped_ty, hmk]
    rw [if_neg (by simp [hcv, hcv2])]
    rw [hrep, hlen]
    rw [wrapLoop_main pfx.toList delims _ hT (k' + 1) _ (by omega) (by omega)
      (by rw [hlen3]; omega)]
    have htkall : delims.take (k' + 1) = delims := by
      rw [← hlen]
      exact List.take_length delims
    rw [htkall, Option.map_some']
    rw [nestDelim_flatten, hlen]
  · intro ty hty
    have hty2 : containsVec ty.data = false := hty
    simp [ApiObjectBuilder.write_wrapped_ty, hty, hty2]

/-- Witness for C8 at two nested sequence wrappers around `String` with a
comma-separated outer level and a pipe-separated inner level. -/
theorem C8_wrapped_ty_witness :
    ApiObjectBuilder.write_wrapped_ty "crate::" (String.mk (nestVec 2 "String".toList))
        [CollectionFormat.Csv, CollectionFormat.Pipes]
      = some (String.mk (nestDelim "crate::".toList
          [CollectionFormat.Csv, CollectionFormat.Pipes] "String".toList)) :=
  (C8_wrapped_ty "crate::" "String" 2 [CollectionFormat.Csv, CollectionFormat.Pipes]
    (by omega) rfl (by decide) (by decide) (by decide)).1
